import Mathlib

/-!
Verification of the URL Resolution & Classification Engine of
`check_links.py` (repository Liliya3004/checkLinks).

The Python source is shallowly embedded: pure string/URL manipulation is
translated to executable Lean functions over `String`/`List Char`; the
network fetch performed by `requests.get` is abstracted as a
`TransportResult` value (the observable outcome of one fetch), and the
functions `check_url_verbose` / `check_url` / the classification branch of
`main` are translated as pure functions of those observables.  Exceptions
raised by the Yandex Direct API client are modelled with `Option` /
`Except`, mirroring exactly which call sites of the source catch them.
-/

set_option maxRecDepth 4096

namespace CheckLinks

/-! ### Model of `urllib.parse.urlparse` (netloc and path components)

Only the pieces of `urlparse` that `check_links.py` consumes are modelled:
`parsed.netloc` and `parsed.path`.  The model follows CPython's `urlsplit`:
an optional `scheme:` part (letters/digits/`+`/`-`/`.` starting with a
letter, up to the first `:`) is removed; a netloc is present exactly when
the remainder starts with `//` and extends to the next `/`, `?` or `#`;
the path is the remainder up to the first `?` or `#`.  (The `;params`
splitting of `urlparse` is omitted: no URL in this development contains
`;` in its last path segment.) -/

/-- Lowercasing (`str.lower()`), implemented on the character list so that
it reduces inside the kernel. -/
def lowerString (s : String) : String :=
  String.mk (s.data.map Char.toLower)

/-- String membership in a list (`in` on a Python set of strings). -/
def memStr (x : String) : List String → Bool
  | [] => false
  | y :: ys => if x = y then true else memStr x ys

/-- `str.startswith`, implemented on character lists. -/
def strStartsWith (s pat : String) : Bool :=
  pat.data.isPrefixOf s.data

/-- Substring containment (Python's `needle in hay`). -/
def strContains (hay needle : String) : Bool :=
  go hay.data needle.data
where
  go : List Char → List Char → Bool
    | hs, ns =>
      ns.isPrefixOf hs ||
        match hs with
        | [] => false
        | _ :: t => go t ns

/-- Python's `str.strip()` restricted to ASCII whitespace, on character
lists so it reduces in the kernel. -/
def strTrim (s : String) : String :=
  String.mk (((s.data.dropWhile Char.isWhitespace).reverse.dropWhile Char.isWhitespace).reverse)

def isSchemeChar (c : Char) : Bool :=
  c.isAlphanum || c = '+' || c = '-' || c = '.'

/-- Split a character list at the first `:`, if any. -/
def splitAtColon : List Char → Option (List Char × List Char)
  | [] => none
  | c :: rest =>
    if c = ':' then some ([], rest)
    else (splitAtColon rest).map fun pr => (c :: pr.1, pr.2)

/-- If the URL starts with a well-formed `scheme:`, return the scheme and
the remainder, as CPython's `urlsplit` does. -/
def schemeSplit (cs : List Char) : Option (List Char × List Char) :=
  match splitAtColon cs with
  | some (sch, rest) =>
    match sch with
    | [] => none
    | c :: _ => if c.isAlpha && sch.all isSchemeChar then some (sch, rest) else none
  | none => none

def dropScheme (cs : List Char) : List Char :=
  match schemeSplit cs with
  | some pr => pr.2
  | none => cs

def isNetlocDelim (c : Char) : Bool :=
  c = '/' || c = '?' || c = '#'

/-- After the scheme is removed: if the remainder starts with `//`, split
off the netloc (up to the next `/`, `?` or `#`). -/
def splitNetloc (cs : List Char) : List Char × List Char :=
  match cs with
  | '/' :: '/' :: rest =>
    (rest.takeWhile (fun c => !isNetlocDelim c), rest.dropWhile (fun c => !isNetlocDelim c))
  | _ => ([], cs)

/-- `urlparse(url).netloc`. -/
def urlparseNetloc (url : String) : String :=
  String.mk (splitNetloc (dropScheme url.data)).1

/-- `urlparse(url).path` (fragment and query stripped). -/
def urlparsePath (url : String) : String :=
  String.mk ((splitNetloc (dropScheme url.data)).2.takeWhile fun c => !(c = '?' || c = '#'))

/-! ### Stub-destination registry (`STUB_DOMAINS`, `is_stub_final_url`) -/

/-- Partner-network stub domains, from the top of `check_links.py`. -/
def STUB_DOMAINS : List String := ["bankpro.su", "tb.gdeslon.ru"]

def STUB_ADMITAD_HOST : String := "offerwall.admitad.com"

/-- Source constant `STUB_ADMITAD_PATH_PREFIX` (`"/wall/offers"`). -/
def STUB_ADMITAD_PATH_START : String := "/wall/offers"

/-- Host used by `is_stub_final_url`: the lowercased netloc (which still
contains any explicit `:port`). -/
def stubHost (final_url : String) : String :=
  lowerString (urlparseNetloc final_url)

/-- Path used by `is_stub_final_url`: `parsed.path or "/"`. -/
def stubPath (final_url : String) : String :=
  let p := urlparsePath final_url
  if p = "" then "/" else p

/-- Translation of `is_stub_final_url`: `None`/empty final URLs are never
stubs; otherwise the lowercased netloc is compared against the exact stub
domains, or against the admitad offer-wall host together with a path
starting with `/wall/offers`. -/
def is_stub_final_url : Option String → Bool
  | none => false
  | some u =>
    if u = "" then false
    else if memStr (stubHost u) STUB_DOMAINS then true
    else if stubHost u = STUB_ADMITAD_HOST then
      strStartsWith (stubPath u) STUB_ADMITAD_PATH_START
    else false

/-! ### Model of the client-redirect regular expressions

`CLIENT_REDIRECT_PATTERNS` in the source is a list of four compiled
regexes, each with exactly one capture group, searched with `pat.search`
(leftmost match; greedy quantifiers, case-insensitive literals).  The
patterns use only literals, single-character classes and greedy `?`/`*`/`+`
over character classes, so they are embedded as token lists interpreted by
a backtracking matcher whose choice order (longest repetition first,
leftmost start position first) is exactly Python's. -/

inductive RTok where
  /-- A literal, compared case-insensitively (the source compiles every
  pattern with `re.I`). -/
  | lit (s : String)
  /-- Exactly one character of a class. -/
  | one (p : Char → Bool)
  /-- Greedy `?` over a character class. -/
  | opt1 (p : Char → Bool)
  /-- Greedy `*` over a character class. -/
  | many0 (p : Char → Bool)
  /-- Greedy `+` over a character class. -/
  | many1 (p : Char → Bool)
  /-- The capture group: greedy `+` over a character class. -/
  | grp1 (p : Char → Bool)

/-- Case-insensitive literal matching; returns the rest of the input. -/
def litMatches : List Char → List Char → Option (List Char)
  | [], cs => some cs
  | _ :: _, [] => none
  | p :: ps, c :: cs => if p.toLower = c.toLower then litMatches ps cs else none

/-- Match a token list against a prefix of the input, returning the text of
the capture group when the match succeeds.  Greedy quantifiers try the
longest repetition first, as Python's backtracking engine does. -/
def matchToks (toks : List RTok) (cs : List Char) : Option (Option String) :=
  match toks with
  | [] => some none
  | .lit s :: ts =>
    match litMatches s.data cs with
    | some rest => matchToks ts rest
    | none => none
  | .one p :: ts =>
    match cs with
    | [] => none
    | c :: rest => if p c then matchToks ts rest else none
  | .opt1 p :: ts =>
    match cs with
    | [] => matchToks ts []
    | c :: rest =>
      if p c then
        match matchToks ts rest with
        | some r => some r
        | none => matchToks ts cs
      else matchToks ts cs
  | .many0 p :: ts =>
    (List.range ((cs.takeWhile p).length + 1)).reverse.findSome? fun k =>
      matchToks ts (cs.drop k)
  | .many1 p :: ts =>
    (List.range ((cs.takeWhile p).length + 1)).reverse.findSome? fun k =>
      if k = 0 then none else matchToks ts (cs.drop k)
  | .grp1 p :: ts =>
    (List.range ((cs.takeWhile p).length + 1)).reverse.findSome? fun k =>
      if k = 0 then none
      else (matchToks ts (cs.drop k)).map fun _ => some (String.mk (cs.take k))

/-- Leftmost search (`pat.search`): try each start position left to right. -/
def searchCapture (toks : List RTok) : List Char → Option (Option String)
  | [] => matchToks toks []
  | c :: rest =>
    match matchToks toks (c :: rest) with
    | some cap => some cap
    | none => searchCapture toks rest

/-- The text of group 1 of the first match of the pattern, if any
(`m.group(1)` after a successful `pat.search(html)`). -/
def patSearch (toks : List RTok) (html : String) : Option String :=
  match searchCapture toks html.data with
  | some (some c) => some c
  | _ => none

def isQuoteCh (c : Char) : Bool := c = '"' || c = '\''

/-- Python's `\s` restricted to its ASCII members. -/
def isSpaceCh (c : Char) : Bool :=
  c = ' ' || c = '\t' || c = '\n' || c = '\r' || c = '\x0b' || c = '\x0c'

/-- Regex `<meta[^>]+http-equiv=["\']?refresh["\']?[^>]+content=["\']?[^"\']*url=([^"\'>\s]+)`. -/
def metaRefreshToks : List RTok :=
  [.lit "<meta", .many1 (fun c => c != '>'), .lit "http-equiv=",
   .opt1 isQuoteCh, .lit "refresh", .opt1 isQuoteCh,
   .many1 (fun c => c != '>'), .lit "content=", .opt1 isQuoteCh,
   .many0 (fun c => !isQuoteCh c), .lit "url=",
   .grp1 (fun c => !isQuoteCh c && c != '>' && !isSpaceCh c)]

/-- Regex `location\.href\s*=\s*["\']([^"\']+)["\']`. -/
def locationHrefToks : List RTok :=
  [.lit "location.href", .many0 isSpaceCh, .lit "=", .many0 isSpaceCh,
   .one isQuoteCh, .grp1 (fun c => !isQuoteCh c), .one isQuoteCh]

/-- Regex `window\.location\s*=\s*["\']([^"\']+)["\']`. -/
def windowLocationToks : List RTok :=
  [.lit "window.location", .many0 isSpaceCh, .lit "=", .many0 isSpaceCh,
   .one isQuoteCh, .grp1 (fun c => !isQuoteCh c), .one isQuoteCh]

/-- Regex `location\.replace\(\s*["\']([^"\']+)["\']\s*\)`. -/
def locationReplaceToks : List RTok :=
  [.lit "location.replace(", .many0 isSpaceCh,
   .one isQuoteCh, .grp1 (fun c => !isQuoteCh c), .one isQuoteCh,
   .many0 isSpaceCh, .lit ")"]

/-- The source's `CLIENT_REDIRECT_PATTERNS`, in its fixed priority order. -/
def CLIENT_REDIRECT_PATTERNS : List (List RTok) :=
  [metaRefreshToks, locationHrefToks, windowLocationToks, locationReplaceToks]

/-! ### Model of `urllib.parse.urljoin`

Only the cases reachable from `extract_client_redirect_url` are modelled
(http(s) absolute base, non-empty target): a target with its own scheme is
returned unchanged; `//host…` borrows the base scheme; otherwise the
target's path is resolved against the base path with CPython's segment
algorithm (drop the base's last segment unless it is empty, filter interior
empty segments of a relative join, process `.`/`..`).  Propagation of the
base query for query-less targets is simplified away: the source only
joins non-empty extracted navigation targets. -/

/-- Accumulating splitter for `splitSegs`; `cur` holds the current segment
reversed. -/
def splitSegsGo (cur : List Char) : List Char → List String
  | [] => [String.mk cur.reverse]
  | c :: rest =>
    if c = '/' then String.mk cur.reverse :: splitSegsGo [] rest
    else splitSegsGo (c :: cur) rest

/-- Split a character list into `/`-separated segments (`path.split('/')`). -/
def splitSegs (cs : List Char) : List String :=
  splitSegsGo [] cs

/-- CPython's `..`/`.` segment resolution loop (`resolved_path`). -/
def resolveSegsAux : List String → List String → List String
  | acc, [] => acc.reverse
  | acc, seg :: rest =>
    if seg = ".." then resolveSegsAux (acc.drop 1) rest
    else if seg = "." then resolveSegsAux acc rest
    else resolveSegsAux (seg :: acc) rest

/-- Join the resolved segments back (`'/'.join(resolved_path) or '/'`),
appending an empty segment when the path ends in `.` or `..`. -/
def resolveSegs (segs : List String) : String :=
  let r := resolveSegsAux [] segs
  let r := if segs.getLast? = some "." || segs.getLast? = some ".." then r ++ [""] else r
  let j := String.intercalate "/" r
  if j = "" then "/" else j

/-- Keep the first and last segments, filter empty interior segments
(CPython's `segments[1:-1] = filter(None, segments[1:-1])`). -/
def filterMiddle (segs : List String) : List String :=
  match segs with
  | [] => []
  | a :: rest =>
    match rest.getLast? with
    | none => [a]
    | some lastSeg => a :: ((rest.dropLast.filter fun s => s ≠ "") ++ [lastSeg])

/-- Model of `urllib.parse.urljoin` (see the section comment for scope). -/
def urljoin (base url : String) : String :=
  if base = "" then url
  else if url = "" then base
  else
    match schemeSplit url.data with
    | some _ => url
    | none =>
      let bAfter := dropScheme base.data
      let bscheme :=
        match schemeSplit base.data with
        | some pr => String.mk pr.1
        | none => ""
      let (bnetloc, bRest) := splitNetloc bAfter
      let bpath := bRest.takeWhile fun c => !(c = '?' || c = '#')
      if url.data.take 2 = ['/', '/'] then bscheme ++ ":" ++ url
      else
        let upath := url.data.takeWhile fun c => !(c = '?' || c = '#')
        let usuffix := String.mk (url.data.dropWhile fun c => !(c = '?' || c = '#'))
        let beforePath := (if bscheme = "" then "" else bscheme ++ ":") ++ "//" ++ String.mk bnetloc
        if upath = [] then beforePath ++ String.mk bpath ++ usuffix
        else
          let joined :=
            match upath with
            | '/' :: _ => resolveSegs (splitSegs upath)
            | _ =>
              let bparts := splitSegs bpath
              let bparts := if bparts.getLast? = some "" then bparts else bparts.dropLast
              resolveSegs (filterMiddle (bparts ++ splitSegs upath))
          beforePath ++ joined ++ usuffix

/-- Translation of `extract_client_redirect_url`: try the patterns in their
fixed order; a pattern whose first match has a whitespace-only capture is
skipped entirely (the `continue` targets the next pattern); the first
non-empty stripped capture is resolved against `base_url` and returned. -/
def extractLoop : List (List RTok) → String → String → Option String
  | [], _, _ => none
  | pat :: rest, html, base =>
    match patSearch pat html with
    | none => extractLoop rest html base
    | some captured =>
      let target := strTrim captured
      if target = "" then extractLoop rest html base
      else some (urljoin base target)

/-- Top of `extract_client_redirect_url`: `if not html: return None` (the
`None` case of the Python `Optional` argument is handled at the call site,
where a response without an HTML body never reaches this function). -/
def extract_client_redirect_url (html : String) (base_url : String) : Option String :=
  if html = "" then none
  else extractLoop CLIENT_REDIRECT_PATTERNS html base_url

/-! ### Model of the single-shot resolver (`check_url_verbose`, `check_url`)

The outbound fetch done by `requests.get(url, …, allow_redirects=True)` is
abstracted as a `TransportResult`: either the final response after all
protocol redirects (status code, final URL, optional `Content-Type`
header, body text) or a raised `requests.RequestException` with its
message.  `check_url_verbose` and `check_url` are then pure functions of
that observable, exactly following the source's two branches. -/

inductive TransportResult where
  /-- `requests.get` returned a response `r` (after protocol redirects):
  `r.status_code`, `r.url`, `r.headers.get("Content-Type")`, `r.text`. -/
  | success (status_code : Nat) (final_url : String) (content_type : Option String) (body : String)
  /-- `requests.get` raised a `requests.RequestException` with message `m`. -/
  | failure (message : String)
deriving DecidableEq

/-- The 4-tuple `(status_code, error_text, final_url, html_text)` returned
by `check_url_verbose`. -/
structure FetchResult where
  status_code : Option Nat
  error_text : Option String
  final_url : Option String
  html_text : Option String
deriving DecidableEq

/-- Translation of `check_url_verbose`: on success the body is kept only
when the lowercased `Content-Type` contains `"text/html"` (a missing
header counts as `""`); on a transport failure every component except the
message is `None`. -/
def check_url_verbose : TransportResult → FetchResult
  | .success status finalUrl contentType body =>
    { status_code := some status
      error_text := none
      final_url := some finalUrl
      html_text :=
        if strContains (lowerString (contentType.getD "")) "text/html" then some body
        else none }
  | .failure msg =>
    { status_code := none, error_text := some msg, final_url := none, html_text := none }

/-- Translation of `check_url`: after `check_url_verbose`, if the status is
exactly 200 and both the HTML body and the final URL are truthy, a
client-side redirect target is extracted from the body (relative to the
final URL) and, when truthy, replaces the returned `final_url`; the status
code and error text are returned unchanged, and the target is never
fetched — `check_url` performs no further network access. -/
def check_url (r : FetchResult) : Option Nat × Option String × Option String :=
  match r.status_code, r.html_text, r.final_url with
  | some s, some h, some f =>
    if s = 200 ∧ h ≠ "" ∧ f ≠ "" then
      match extract_client_redirect_url h f with
      | some t => if t ≠ "" then (some s, r.error_text, some t) else (some s, r.error_text, some f)
      | none => (some s, r.error_text, some f)
    else (some s, r.error_text, some f)
  | _, _, _ => (r.status_code, r.error_text, r.final_url)

/-! ### Model of the outcome classification (`main`, lines 486-512)

`main` does not name a classifier, but its per-link branch structure —
first the `2xx and not stub` success check, then the stub check, then the
`status is None` transport check, then the status-description lookup, with
404 split out when the Telegram report groups the issues — is a total
function from `check_url`'s result to a semantic category. -/

/-- The status-code description table `HTTP_STATUS_DESCRIPTIONS`. -/
def HTTP_STATUS_DESCRIPTIONS : List (Nat × String) :=
  [(400, "неверный запрос"),
   (401, "требуется авторизация"),
   (403, "доступ запрещён (часто блокировка ботов)"),
   (404, "страница не найдена"),
   (429, "слишком много запросов"),
   (500, "внутренняя ошибка сервера"),
   (502, "ошибочный шлюз"),
   (503, "сервис временно недоступен"),
   (504, "шлюз не отвечает")]

/-- `HTTP_STATUS_DESCRIPTIONS.get(status)`. -/
def statusDescription : Nat → Option String :=
  fun s => go s HTTP_STATUS_DESCRIPTIONS
where
  go (s : Nat) : List (Nat × String) → Option String
    | [] => none
    | (k, v) :: rest => if s = k then some v else go s rest

/-- The closed set of outcome categories of the data model. -/
inductive Classification where
  | OK
  | Stub
  | NotFound
  | OtherHttpError (code : Nat) (description : Option String)
  | TransportError (message : String)
deriving DecidableEq

/-- The default used at line 501: `error or "ошибка запроса, подробности
отсутствуют"`. -/
def defaultErrorText (error : Option String) : String :=
  match error with
  | some e => if e = "" then "ошибка запроса, подробности отсутствуют" else e
  | none => "ошибка запроса, подробности отсутствуют"

/-- `status is not None and 200 <= status < 300`. -/
def is2xxOpt : Option Nat → Bool
  | some s => 200 ≤ s && s < 300
  | none => false

/-- The classification decision order of `main`: the `2xx`-success check
already excludes stubs, so a stub final URL wins over any status; then a
missing status is a transport error; then 404 is separated from the other
HTTP codes (as the report grouping does), with the description table
consulted. -/
def classify (status : Option Nat) (error : Option String) (final_url : Option String) :
    Classification :=
  let stub := is_stub_final_url final_url
  if is2xxOpt status && !stub then .OK
  else if stub then .Stub
  else
    match status with
    | none => .TransportError (defaultErrorText error)
    | some s => if s = 404 then .NotFound else .OtherHttpError s (statusDescription s)

/-! ### Model of the per-entity run loop (`main`, lines 462-523)

A campaign's ad listing is a sequence of links; `iter_ads` can fail
part-way through the listing, in which case the links that would have
followed are never seen.  Which exception the failure raises decides its
fate: inside `_request` (lines 67-83) only the `requests.post` call is
wrapped into `RuntimeError` (and an API-error payload is raised as
`RuntimeError` as well), while `response.raise_for_status()` (line 77)
and `response.json()` (line 78) sit outside that wrapper, so an HTTP
error status raises `requests.exceptions.HTTPError` and a malformed body
raises a JSON decode error.  `main` wraps the per-campaign ad loop in
`try/except RuntimeError` only: a `RuntimeError` is recorded per-entity
and the loop continues, anything else escapes `main`.  The iteration over
`iter_active_campaign_ids()` itself (line 462) is outside every handler,
so any failure while listing the campaigns propagates out of `main`. -/

/-- One candidate link together with the observable outcome of its single
fetch. -/
structure LinkCheck where
  ad_id : Nat
  url : String
  fetch : TransportResult
deriving DecidableEq

/-- One entry of `issues_http[campaign_id]`:
`(ad_id, url, status_code_or_None, description_or_error_text, is_stub)`. -/
structure Issue where
  ad_id : Nat
  url : String
  status_code : Option Nat
  description : Option String
  is_stub : Bool
deriving DecidableEq

/-- How an entity's ad listing can fail, split by which exception reaches
`main`'s per-campaign handler. -/
inductive ListingFailure where
  /-- A `RuntimeError` — the network-failure wrapper or the API-error
  branch of `_request` — caught by `except RuntimeError` at line 517. -/
  | runtimeError (message : String)
  /-- A non-`RuntimeError` exception reachable from the ad loop — an
  `HTTPError` from `response.raise_for_status()` (line 77) or a JSON
  decode failure from `response.json()` (line 78) — which `except
  RuntimeError` does not catch, so it propagates out of `main`. -/
  | uncaught (message : String)
deriving DecidableEq

/-- An entity (campaign) as `main` observes it: the links its ad listing
yields, and, if the listing fails part-way, the raised exception together
with the links that the listing would have produced afterwards (which
`main` never sees). -/
structure CampaignData where
  campaign_id : Nat
  name : String
  yielded : List LinkCheck
  listing_failure : Option (ListingFailure × List LinkCheck)
deriving DecidableEq

/-- The per-link body of the loop (lines 483-515): classify the resolved
outcome and build the issue tuple appended to `issues_http`, or nothing
for a healthy link. -/
def processLink (l : LinkCheck) : Option Issue :=
  let r := check_url (check_url_verbose l.fetch)
  let status := r.1
  let error := r.2.1
  let final_url := r.2.2
  let stub := is_stub_final_url final_url
  if is2xxOpt status && !stub then none
  else if stub then
    some ⟨l.ad_id, l.url, status, some "переход на заглушку партнёрской сети", true⟩
  else
    match status with
    | none => some ⟨l.ad_id, l.url, none, some (defaultErrorText error), false⟩
    | some s => some ⟨l.ad_id, l.url, some s, statusDescription s, false⟩

/-- The classification of a candidate link's resolved outcome. -/
def classifyLink (l : LinkCheck) : Classification :=
  let r := check_url (check_url_verbose l.fetch)
  classify r.1 r.2.1 r.2.2

/-- Line 519: `f"ошибка обращения к API для кампании {campaign_id}: {e}"`. -/
def apiErrText (campaign_id : Nat) (e : String) : String :=
  "ошибка обращения к API для кампании " ++ toString campaign_id ++ ": " ++ e

/-- The run's accumulated report state: link-level issues per campaign
(`issues_http`, keyed only for campaigns that produced issues), the
entity-level API failures (`issues_api`), and the `any_issue` flag. -/
structure Report where
  issues_http : List (Nat × List Issue)
  issues_api : List (Nat × String)
  any_issue : Bool
deriving DecidableEq

/-- The `issues_http` entry a campaign contributes — keyed only when at
least one of its links produced an issue, mirroring the `defaultdict`
being touched only by `append`. -/
def campaignHttpEntry (c : CampaignData) : List (Nat × List Issue) :=
  let issues := c.yielded.filterMap processLink
  if issues = [] then [] else [(c.campaign_id, issues)]

/-- The message of the entity's uncaught (non-`RuntimeError`) listing
failure, if it has one. -/
def campaignAborts (c : CampaignData) : Option String :=
  match c.listing_failure with
  | some (.uncaught m, _) => some m
  | _ => none

/-- The campaign loop of `main`: each campaign's yielded links are
processed one by one; a `RuntimeError` from the ad listing is caught by
the per-campaign handler, recorded in `issues_api`, and the loop proceeds
with the next campaign — links behind the failure point are unreachable
and contribute nothing.  A non-`RuntimeError` exception escapes the
handler and `main` itself: the run aborts and no report is ever finalized
(the issues accumulated so far die with the aborted process). -/
def runAll : List CampaignData → Except String Report
  | [] => .ok ⟨[], [], false⟩
  | c :: rest =>
    match c.listing_failure with
    | some (.uncaught m, _) => .error m
    | some (.runtimeError m, _) =>
      match runAll rest with
      | .error e => .error e
      | .ok r =>
        .ok { issues_http := campaignHttpEntry c ++ r.issues_http
              issues_api := (c.campaign_id, apiErrText c.campaign_id m) :: r.issues_api
              any_issue := true }
    | none =>
      match runAll rest with
      | .error e => .error e
      | .ok r =>
        .ok { issues_http := campaignHttpEntry c ++ r.issues_http
              issues_api := r.issues_api
              any_issue := !(c.yielded.filterMap processLink).isEmpty || r.any_issue }

/-- The whole run from the point of view of report finalization: the
iteration over `iter_active_campaign_ids()` (line 462) sits outside every
exception handler, so when the campaign listing itself raises, `main`
terminates with the exception and no report is built; a successful
campaign listing reaches finalization exactly when no entity's ad listing
raises an uncaught (non-`RuntimeError`) exception. -/
def mainRun : Except String (List CampaignData) → Except String Report
  | .error e => .error e
  | .ok cs => runAll cs

/-- Whether a run produced a finalized report. -/
def producesReport : Except String Report → Bool
  | .ok _ => true
  | .error _ => false

/-! ### Model of the Recheck Coordinator

Modelled from the spec: `resolve_with_recheck` is not part of
`src/check_links.py` — the file's trailing usage notes document the
`--recheck-delay`/`--recheck-attempts`/`--recheck-only-domains` options and
that «Финальный результат берётся по ПОСЛЕДНЕЙ попытке», but the
implementation lives in another copy of the script.  Following §4.4 of the
spec: at least one resolution is always performed; before each of the up
to `recheck_attempts` additional attempts, eligibility is re-evaluated on
the host of the most recent final URL (all hosts eligible when no host set
is configured); the authoritative outcome is the most recent attempt.  The
n-th call of `resolve_once` is abstracted as `resolve n`; the blocking
`recheck_delay` pause has no observable effect on the outcome and is not
modelled. -/

structure ResolutionAttempt where
  status_code : Option Nat
  transport_error : Option String
  final_url : Option String
deriving DecidableEq

/-- Modelled from the spec: recheck eligibility — every URL is eligible
when no host set is configured; otherwise the host of the current final
URL must belong to the set. -/
def recheckEligible (eligible_hosts : Option (List String)) (current : ResolutionAttempt) : Bool :=
  match eligible_hosts with
  | none => true
  | some hosts =>
    match current.final_url with
    | some u => memStr (lowerString (urlparseNetloc u)) hosts
    | none => false

/-- Modelled from the spec: the recheck loop; `current` is the most recent
attempt, `idx` the index of the next attempt, and the third argument the
number of additional attempts still allowed. -/
def resolveLoop (resolve : Nat → ResolutionAttempt) (eligible_hosts : Option (List String)) :
    ResolutionAttempt → Nat → Nat → ResolutionAttempt × Nat
  | current, idx, 0 => (current, idx)
  | current, idx, n + 1 =>
    if recheckEligible eligible_hosts current then
      resolveLoop resolve eligible_hosts (resolve idx) (idx + 1) n
    else (current, idx)

/-- Modelled from the spec: `resolve_with_recheck` — one mandatory
`resolve_once`, then up to `recheck_attempts` re-resolutions while
eligible; returns the authoritative outcome together with the number of
attempts actually made. -/
def resolve_with_recheck (resolve : Nat → ResolutionAttempt) (recheck_attempts : Nat)
    (eligible_hosts : Option (List String)) : ResolutionAttempt × Nat :=
  resolveLoop resolve eligible_hosts (resolve 0) 1 recheck_attempts

/-! ## Helper lemmas -/

/-- With no host restriction every attempt is eligible, so the recheck loop
with `n + 1` remaining attempts runs them all and ends on attempt
`idx + n`. -/
theorem resolveLoop_all_eligible (resolve : Nat → ResolutionAttempt) :
    ∀ (n idx : Nat) (c : ResolutionAttempt),
      resolveLoop resolve none c idx (n + 1) = (resolve (idx + n), idx + n + 1) := by
  intro n
  induction n with
  | zero => intro idx c; simp [resolveLoop, recheckEligible]
  | succ k ih =>
    intro idx c
    have step : resolveLoop resolve none c idx (k + 1 + 1) =
        resolveLoop resolve none (resolve idx) (idx + 1) (k + 1) := rfl
    have harith : idx + 1 + k = idx + (k + 1) := by omega
    rw [step, ih (idx + 1) (resolve idx), harith]

/-- When every pattern's first match (if any) strips to the empty string,
the whole extraction loop yields nothing. -/
theorem extractLoop_all_empty (pats : List (List RTok)) (html base : String)
    (h : ∀ toks ∈ pats, ∀ cap, patSearch toks html = some cap → strTrim cap = "") :
    extractLoop pats html base = none := by
  induction pats with
  | nil => rfl
  | cons p rest ih =>
    simp only [extractLoop]
    rcases e : patSearch p html with _ | cap
    · exact ih fun t ht => h t (List.mem_cons_of_mem _ ht)
    · have hc := h p (List.mem_cons_self _ _) cap e
      simp only [hc, if_pos rfl]
      exact ih fun t ht => h t (List.mem_cons_of_mem _ ht)

/-- Unfolding `runAll` at a campaign with no listing failure. -/
theorem runAll_cons_none (c : CampaignData) (rest : List CampaignData)
    (hlf : c.listing_failure = none) :
    runAll (c :: rest) =
      match runAll rest with
      | .error e => .error e
      | .ok r =>
        .ok ⟨campaignHttpEntry c ++ r.issues_http, r.issues_api,
          !(c.yielded.filterMap processLink).isEmpty || r.any_issue⟩ := by
  rw [runAll, hlf]

/-- Unfolding `runAll` at a campaign whose ad listing raised a caught
`RuntimeError`. -/
theorem runAll_cons_runtimeError (c : CampaignData) (m : String)
    (unseen : List LinkCheck) (rest : List CampaignData)
    (hlf : c.listing_failure = some (.runtimeError m, unseen)) :
    runAll (c :: rest) =
      match runAll rest with
      | .error e => .error e
      | .ok r =>
        .ok ⟨campaignHttpEntry c ++ r.issues_http,
          (c.campaign_id, apiErrText c.campaign_id m) :: r.issues_api, true⟩ := by
  rw [runAll, hlf]

/-- Unfolding `runAll` at a campaign whose ad listing raised an uncaught
exception: the run aborts at once. -/
theorem runAll_cons_uncaught (c : CampaignData) (m : String)
    (unseen : List LinkCheck) (rest : List CampaignData)
    (hlf : c.listing_failure = some (.uncaught m, unseen)) :
    runAll (c :: rest) = .error m := by
  rw [runAll, hlf]

/-- A run with no uncaught listing failures always finalizes a report. -/
theorem runAll_no_abort (cs : List CampaignData)
    (h : ∀ c ∈ cs, campaignAborts c = none) :
    producesReport (runAll cs) = true := by
  induction cs with
  | nil => rfl
  | cons c rest ih =>
    have hc := h c (List.mem_cons_self _ _)
    have hrest := ih fun c' hc' => h c' (List.mem_cons_of_mem _ hc')
    rcases hpost : runAll rest with e | b
    · rw [hpost] at hrest
      exact absurd hrest (by simp [producesReport])
    · rcases hlf : c.listing_failure with _ | ⟨lf, unseen⟩
      · rw [runAll_cons_none c rest hlf, hpost]
        rfl
      · cases lf with
        | runtimeError m =>
          rw [runAll_cons_runtimeError c m unseen rest hlf, hpost]
          rfl
        | uncaught m =>
          rw [campaignAborts, hlf] at hc
          exact absurd hc (by simp)

/-! ## Claims -/

/-- C1: whenever the final URL matches the stub registry (exact host in the
stub-domain set, or the admitad offer-wall host with path starting
`/wall/offers`), the classification is `Stub` and never `OK`, for every
status code — in particular for a 2xx status, because the success check of
`main` already excludes stubs. -/
theorem stub_registry_beats_2xx (status : Option Nat) (error : Option String)
    (final_url : Option String) (h : is_stub_final_url final_url = true) :
    classify status error final_url = Classification.Stub ∧
      classify status error final_url ≠ Classification.OK := by
  have hs : classify status error final_url = Classification.Stub := by
    simp [classify, h]
  exact ⟨hs, by rw [hs]; simp⟩

/-- C1 witness: `status_code = 200` with final URL
`https://bankpro.su/x` is classified `Stub`. -/
theorem stub_registry_beats_2xx_witness :
    is_stub_final_url (some "https://bankpro.su/x") = true ∧
      classify (some 200) none (some "https://bankpro.su/x") = Classification.Stub :=
  ⟨by decide, (stub_registry_beats_2xx (some 200) none (some "https://bankpro.su/x") (by decide)).1⟩

/-- C2: resolution with recheck always performs at least one attempt, and
for every configured number of recheck attempts the authoritative outcome
is exactly the outcome of the most recent attempt — earlier attempts are
discarded, not merged; in particular the attempt sequence
`[TransportError, OK(200)]` with one recheck resolves to `OK(200)`. -/
theorem recheck_last_attempt_wins :
    (∀ (resolve : Nat → ResolutionAttempt) (n : Nat),
        1 ≤ (resolve_with_recheck resolve n none).2 ∧
          (resolve_with_recheck resolve n none).1 = resolve n) ∧
    (resolve_with_recheck
        (fun i => if i = 0 then ⟨none, some "connection timeout", none⟩
          else ⟨some 200, none, some "https://landing.example/"⟩) 1 none
      = (⟨some 200, none, some "https://landing.example/"⟩, 2)) := by
  constructor
  · intro resolve n
    cases n with
    | zero => exact ⟨Nat.le_refl 1, rfl⟩
    | succ k =>
      unfold resolve_with_recheck
      rw [resolveLoop_all_eligible resolve k 1 (resolve 0)]
      exact ⟨by omega, by simp [Nat.add_comm]⟩
  · rfl

/-- C3: when a single fetch resolves to status 200 with a captured non-empty
HTML body and the pattern matcher extracts a client-side redirect target
from that body (resolved against the fetched final URL), `check_url`
returns the target as the final URL while the status code stays the
original 200; being a pure function of the one fetch result, `check_url`
never fetches the target. -/
theorem client_redirect_overwrites_final_url (r : FetchResult) (h f t : String)
    (hs : r.status_code = some 200) (hh : r.html_text = some h) (hne : h ≠ "")
    (hf : r.final_url = some f) (hfe : f ≠ "")
    (he : extract_client_redirect_url h f = some t) (hte : t ≠ "") :
    check_url r = (some 200, r.error_text, some t) := by
  rcases r with ⟨sc, et, fu, htm⟩
  simp only at hs hh hf
  subst hs; subst hh; subst hf
  simp [check_url, hne, hfe, he, hte]

/-- C3 witness: a 200 response from `https://site.example/x` whose body is a
meta refresh towards `/offer/123` comes back with final URL
`https://site.example/offer/123` and status 200. -/
theorem client_redirect_overwrites_final_url_witness :
    check_url ⟨some 200, none, some "https://site.example/x",
        some "<meta http-equiv=refresh content=url=/offer/123>"⟩ =
      (some 200, none, some "https://site.example/offer/123") :=
  client_redirect_overwrites_final_url
    ⟨some 200, none, some "https://site.example/x",
      some "<meta http-equiv=refresh content=url=/offer/123>"⟩
    "<meta http-equiv=refresh content=url=/offer/123>" "https://site.example/x"
    "https://site.example/offer/123" rfl rfl (by decide) rfl (by decide) (by decide) (by decide)

/-- C5: the extraction rules are evaluated in their fixed priority order, so
whenever the meta-refresh rule matches with a non-empty stripped target,
that target (resolved against the base URL) is returned no matter which
later rules would also match — a document holding both a meta refresh and a
`location.replace` call yields the meta-refresh target. -/
theorem meta_refresh_rule_wins (html base cap : String)
    (h0 : html ≠ "") (h1 : patSearch metaRefreshToks html = some cap)
    (h2 : strTrim cap ≠ "") :
    extract_client_redirect_url html base = some (urljoin base (strTrim cap)) := by
  simp [extract_client_redirect_url, CLIENT_REDIRECT_PATTERNS, extractLoop, h0, h1, h2]

/-- C5 witness: a document containing both a meta refresh towards `/a` and a
`location.replace('/b')` call (the replace rule matches, as the first
conjunct shows) extracts `/a`. -/
theorem meta_refresh_rule_wins_witness :
    patSearch locationReplaceToks
        "<meta http-equiv=refresh content=url=/a><script>location.replace('/b')</script>"
      = some "/b" ∧
    extract_client_redirect_url
        "<meta http-equiv=refresh content=url=/a><script>location.replace('/b')</script>"
        "https://site.example/x"
      = some "https://site.example/a" :=
  ⟨by decide,
    (meta_refresh_rule_wins
      "<meta http-equiv=refresh content=url=/a><script>location.replace('/b')</script>"
      "https://site.example/x" "/a" (by decide) (by decide) (by decide)).trans (by decide)⟩

/-- C6: empty or whitespace-only captures are non-matches — extraction
returns `None` on empty HTML; it returns `None` when every rule either
fails or only captures whitespace; and a rule whose first match strips to
the empty string is skipped in favour of the *next rule* (not the next
position of the same rule), as the third conjunct shows with the
`location.href` rule falling through to the `window.location` rule. -/
theorem empty_target_falls_through :
    (∀ base, extract_client_redirect_url "" base = none) ∧
    (∀ html base, html ≠ "" →
      (∀ toks ∈ CLIENT_REDIRECT_PATTERNS, ∀ cap, patSearch toks html = some cap →
        strTrim cap = "") →
      extract_client_redirect_url html base = none) ∧
    (∀ html base cap cap2, html ≠ "" →
      patSearch metaRefreshToks html = none →
      patSearch locationHrefToks html = some cap → strTrim cap = "" →
      patSearch windowLocationToks html = some cap2 → strTrim cap2 ≠ "" →
      extract_client_redirect_url html base = some (urljoin base (strTrim cap2))) := by
  refine ⟨fun base => rfl, fun html base h0 hall => ?_, ?_⟩
  · simp only [extract_client_redirect_url, if_neg h0]
    exact extractLoop_all_empty _ html base hall
  · intro html base cap cap2 h0 hm hh hhe hw hwe
    simp [extract_client_redirect_url, CLIENT_REDIRECT_PATTERNS, extractLoop,
      h0, hm, hh, hhe, hw, hwe]

/-- C6 witness: in `location.href = ' ' window.location = '/next'` the
`location.href` rule matches first but captures only whitespace, and
extraction falls through to the `window.location` rule. -/
theorem empty_target_falls_through_witness :
    extract_client_redirect_url "location.href = ' ' window.location = '/next'"
        "https://site.example/x"
      = some "https://site.example/next" :=
  (empty_target_falls_through.2.2 "location.href = ' ' window.location = '/next'"
    "https://site.example/x" " " "/next" (by decide) (by decide) (by decide) (by decide)
    (by decide) (by decide)).trans (by decide)

/-- C7: the HTML body of a successful fetch is captured exactly when the
lowercased content type contains `text/html` (and then it is the response
body); a 200 response with content type `application/pdf` has no HTML
captured and is classified `OK`. -/
theorem html_capture_iff_html_content_type :
    (∀ s f ct b, ((check_url_verbose (.success s f ct b)).html_text ≠ none ↔
        strContains (lowerString (ct.getD "")) "text/html" = true)) ∧
    (∀ s f ct b, (check_url_verbose (.success s f ct b)).html_text = none ∨
        (check_url_verbose (.success s f ct b)).html_text = some b) ∧
    ((check_url_verbose
        (.success 200 "https://example.com/file.pdf" (some "application/pdf") "%PDF-1.4")).html_text
        = none ∧
      classifyLink ⟨1, "https://ads.example/go",
          .success 200 "https://example.com/file.pdf" (some "application/pdf") "%PDF-1.4"⟩
        = Classification.OK) := by
  refine ⟨fun s f ct b => ?_, fun s f ct b => ?_, by decide, by decide⟩
  · simp only [check_url_verbose]
    split <;> simp [*]
  · simp only [check_url_verbose]
    split
    · right; rfl
    · left; rfl

/-- C8 counterexample: the claim «a failure from the inventory source
while listing one entity's links … proceeds to the next entity; no
condition aborts the entire run, and the process always reaches report
finalization» fails on the code in two ways.  First, the iteration over
`iter_active_campaign_ids()` (line 462) sits outside every exception
handler, so a failure while listing the campaigns aborts `main` with no
report.  Second, even with a successful campaign listing, an ads.get
response with an HTTP error status raises `HTTPError` from
`response.raise_for_status()` (line 77), outside the `RuntimeError`
wrapper of `_request`, so the per-campaign `except RuntimeError` (line
517) does not catch it: the run aborts while listing the first entity's
links, the second entity is never processed and no report is finalized. -/
theorem inventory_failure_aborts_run :
    producesReport (mainRun (Except.error
      "Ошибка сети при запросе campaigns.get: connection refused")) = false ∧
    producesReport (mainRun (Except.ok
      [⟨1, "Campaign A", [],
        some (.uncaught
          "500 Server Error: Internal Server Error for url: https://api.direct.yandex.com/json/v5/ads",
          [])⟩,
       ⟨2, "Campaign B", [], none⟩])) = false :=
  ⟨rfl, rfl⟩

/-- C8 (amended): a failure from the inventory source while listing one
entity's links is contained only when it surfaces as the `RuntimeError`
raised by `_request` (its network-failure wrapper or its API-error
branch): then the entity's remaining links are skipped — they cannot
influence the report at all — the failure is recorded in the entity-level
`issues_api`, distinct from the link-level `issues_http`, and the run
proceeds to the next entity, finalizing exactly when the rest of the run
does.  An inventory-source failure that `_request` does not wrap — an
HTTP error status raised by `raise_for_status`, or a JSON-decode failure
— escapes the per-campaign `except RuntimeError` and aborts the whole run
with its message and no report; finalization is reached whenever the
campaign listing succeeds and no entity's ad listing raises such an
uncaught exception. -/
theorem ad_listing_failure_contained :
    (∀ (pre post : List CampaignData) (c : CampaignData) (m : String)
        (rest rest' : List LinkCheck),
      runAll (pre ++ ({c with listing_failure := some (.runtimeError m, rest)}) :: post) =
        runAll (pre ++ ({c with listing_failure := some (.runtimeError m, rest')}) :: post)) ∧
    (∀ (pre post : List CampaignData) (c : CampaignData) (m : String)
        (rest : List LinkCheck) (r : Report),
      runAll (pre ++ ({c with listing_failure := some (.runtimeError m, rest)}) :: post) =
          .ok r →
      (c.campaign_id, apiErrText c.campaign_id m) ∈ r.issues_api) ∧
    (∀ (post : List CampaignData) (c : CampaignData) (m : String) (rest : List LinkCheck),
      producesReport
          (runAll (({c with listing_failure := some (.runtimeError m, rest)}) :: post)) =
        producesReport (runAll post)) ∧
    (∀ (pre post : List CampaignData) (c : CampaignData) (m : String)
        (rest : List LinkCheck),
      (∀ c' ∈ pre, campaignAborts c' = none) →
      mainRun (.ok (pre ++ ({c with listing_failure := some (.uncaught m, rest)}) :: post)) =
        .error m) ∧
    (∀ cs : List CampaignData, (∀ c ∈ cs, campaignAborts c = none) →
      producesReport (mainRun (.ok cs)) = true) := by
  refine ⟨?_, ?_, ?_, ?_, fun cs h => runAll_no_abort cs h⟩
  · intro pre post c m rest rest'
    induction pre with
    | nil =>
      rw [List.nil_append, List.nil_append,
        runAll_cons_runtimeError _ m rest post rfl,
        runAll_cons_runtimeError _ m rest' post rfl]
      rfl
    | cons p pre' ih =>
      rw [List.cons_append, List.cons_append, runAll, runAll, ih]
  · intro pre post c m rest r
    induction pre generalizing r with
    | nil =>
      intro hr
      rw [List.nil_append, runAll_cons_runtimeError _ m rest post rfl] at hr
      rcases hpost : runAll post with e | b
      · rw [hpost] at hr
        cases hr
      · rw [hpost] at hr
        injection hr with h
        rw [← h]
        exact List.mem_cons_self _ _
    | cons p pre' ih =>
      intro hr
      rw [List.cons_append] at hr
      rcases hlf : p.listing_failure with _ | ⟨lf, unseen⟩
      · rw [runAll_cons_none p _ hlf] at hr
        rcases hmid : runAll (pre' ++
            ({c with listing_failure := some (.runtimeError m, rest)}) :: post) with e | b
        · rw [hmid] at hr
          cases hr
        · rw [hmid] at hr
          injection hr with h
          rw [← h]
          exact ih b hmid
      · cases lf with
        | runtimeError m' =>
          rw [runAll_cons_runtimeError p m' unseen _ hlf] at hr
          rcases hmid : runAll (pre' ++
              ({c with listing_failure := some (.runtimeError m, rest)}) :: post) with e | b
          · rw [hmid] at hr
            cases hr
          · rw [hmid] at hr
            injection hr with h
            rw [← h]
            exact List.mem_cons_of_mem _ (ih b hmid)
        | uncaught m' =>
          rw [runAll_cons_uncaught p m' unseen _ hlf] at hr
          cases hr
  · intro post c m rest
    rw [runAll_cons_runtimeError _ m rest post rfl]
    rcases hpost : runAll post with e | b <;> rfl
  · intro pre post c m rest h
    induction pre with
    | nil =>
      show runAll _ = .error m
      rw [List.nil_append, runAll_cons_uncaught _ m rest post rfl]
    | cons p pre' ih =>
      have hp := h p (List.mem_cons_self _ _)
      have ihrun : runAll (pre' ++
          ({c with listing_failure := some (.uncaught m, rest)}) :: post) = .error m :=
        ih fun c' hc' => h c' (List.mem_cons_of_mem _ hc')
      show runAll _ = .error m
      rw [List.cons_append]
      rcases hlf : p.listing_failure with _ | ⟨lf, unseen⟩
      · rw [runAll_cons_none p _ hlf, ihrun]
      · cases lf with
        | runtimeError m' => rw [runAll_cons_runtimeError p m' unseen _ hlf, ihrun]
        | uncaught m' =>
          rw [campaignAborts, hlf] at hp
          exact absurd hp (by simp)

/-- C8 witness: a run whose first entity's ad listing raised a caught
`RuntimeError` still finalizes a report, while a single entity whose ad
listing raised an uncaught `HTTPError` aborts the run with that message. -/
theorem ad_listing_failure_contained_witness :
    producesReport (mainRun (Except.ok
      [⟨7, "Campaign A", [],
        some (.runtimeError "Ошибка сети при запросе ads.get: timeout", [])⟩,
       ⟨8, "Campaign B", [], none⟩])) = true ∧
    mainRun (Except.ok
      [⟨9, "Campaign C", [],
        some (.uncaught
          "404 Client Error: Not Found for url: https://api.direct.yandex.com/json/v5/ads",
          [])⟩]) =
      .error "404 Client Error: Not Found for url: https://api.direct.yandex.com/json/v5/ads" :=
  ⟨ad_listing_failure_contained.2.2.2.2
      [⟨7, "Campaign A", [],
        some (.runtimeError "Ошибка сети при запросе ads.get: timeout", [])⟩,
       ⟨8, "Campaign B", [], none⟩]
      (by decide),
    ad_listing_failure_contained.2.2.2.1 [] [] ⟨9, "Campaign C", [], none⟩
      "404 Client Error: Not Found for url: https://api.direct.yandex.com/json/v5/ads" []
      (fun c' hc' => absurd hc' (List.not_mem_nil c'))⟩

/-- C9: a candidate link contributes no issue exactly when its
classification is `OK`, and every link contributes at most one issue (the
per-campaign issue list is never longer than the link list). -/
theorem one_issue_iff_not_ok :
    (∀ l : LinkCheck, (processLink l = none ↔ classifyLink l = Classification.OK)) ∧
    (∀ links : List LinkCheck, (links.filterMap processLink).length ≤ links.length) := by
  constructor
  · intro l
    unfold processLink classifyLink classify
    cases h : (is2xxOpt (check_url (check_url_verbose l.fetch)).1 &&
        !is_stub_final_url (check_url (check_url_verbose l.fetch)).2.2)
    · cases hs : is_stub_final_url (check_url (check_url_verbose l.fetch)).2.2
      · cases hst : (check_url (check_url_verbose l.fetch)).1
        · simp [h, hs, hst]
        · simp [h, hs, hst]
          split <;> simp
      · simp [h, hs]
    · simp [h]
  · intro links
    induction links with
    | nil => simp
    | cons l rest ih =>
      simp only [List.filterMap]
      cases processLink l <;> simp [List.length_cons] <;> omega

/-- C10: stub matching lowercases the netloc (so it is host-case
insensitive and the decision depends only on the lowercased netloc and the
path), compares the full netloc including an explicit port (so
`bankpro.su:8080` is not a stub), treats `None` and empty final URLs as
non-stubs, and uses `/` in place of an empty path for the admitad
path-prefix check. -/
theorem stub_matching_details :
    (∀ u v : String, lowerString (urlparseNetloc u) = lowerString (urlparseNetloc v) →
      urlparsePath u = urlparsePath v → u ≠ "" → v ≠ "" →
      is_stub_final_url (some u) = is_stub_final_url (some v)) ∧
    stubHost "https://BankPro.SU/x" = "bankpro.su" ∧
    is_stub_final_url (some "https://BankPro.SU/x") = true ∧
    stubHost "https://bankpro.su:8080/x" = "bankpro.su:8080" ∧
    is_stub_final_url (some "https://bankpro.su:8080/x") = false ∧
    is_stub_final_url none = false ∧
    is_stub_final_url (some "") = false ∧
    urlparsePath "https://offerwall.admitad.com" = "" ∧
    stubPath "https://offerwall.admitad.com" = "/" ∧
    is_stub_final_url (some "https://offerwall.admitad.com") = false ∧
    is_stub_final_url (some "https://offerwall.admitad.com/wall/offers?cid=1") = true := by
  refine ⟨fun u v hn hp hu hv => ?_, by decide, by decide, by decide, by decide, rfl,
    by decide, by decide, by decide, by decide, by decide⟩
  simp only [is_stub_final_url, stubHost, stubPath, hn, hp, if_neg hu, if_neg hv]

/-- C10 witness: case-insensitivity instantiated — `https://BankPro.SU/x`
and `https://bankpro.su/x` classify identically. -/
theorem stub_matching_details_witness :
    is_stub_final_url (some "https://BankPro.SU/x")
      = is_stub_final_url (some "https://bankpro.su/x") :=
  stub_matching_details.1 "https://BankPro.SU/x" "https://bankpro.su/x"
    (by decide) (by decide) (by decide) (by decide)

/-- C4: for every transport result, the resolution attempt produced by
`check_url_verbose` has exactly one of `status_code` and the transport
error text set, and `final_url` is `None` exactly when the request failed
before any response; on success it returns
`(status, None, final_url, …)`, on failure `(None, message, None, None)`. -/
theorem resolution_attempt_exclusive :
    (∀ tr : TransportResult,
        (((check_url_verbose tr).status_code = none) ↔ (check_url_verbose tr).error_text ≠ none) ∧
        (((check_url_verbose tr).final_url = none) ↔ (check_url_verbose tr).status_code = none)) ∧
    (∀ m, check_url_verbose (.failure m) = ⟨none, some m, none, none⟩) ∧
    (∀ s f ct b, (check_url_verbose (.success s f ct b)).status_code = some s ∧
        (check_url_verbose (.success s f ct b)).error_text = none ∧
        (check_url_verbose (.success s f ct b)).final_url = some f) := by
  refine ⟨fun tr => ?_, fun m => rfl, fun s f ct b => ⟨rfl, rfl, rfl⟩⟩
  cases tr <;> simp [check_url_verbose]

end CheckLinks
